import Mathlib

/-!
Verification of the query-orchestration and response-parsing core of the
Elderly Care Assistant API server (`src/api/server.py`).

The Python source is shallowly embedded: strings are Lean `String`s (the
step-extraction algorithm works on `List Char`, the character list of a
string), Python `None`-able values are `Option`s, Python dictionaries
returned by the client functions become structures or inductive sum types,
and the HTTP transport underneath `httpx` is an explicit parameter (an
oracle mapping the call index and the payload to a transport outcome), so
that "no retry" and "the backend was not contacted" are provable facts.
Python exceptions that the source catches are modelled as `Except` values
or as the sum constructors of the transport outcome; floating point
constants that are only ever passed through (0.9, 0.3, ...) are modelled
as rationals.
-/

namespace ElderlyCare

/-! ### Python string primitives used by `server.py`

`str.strip`, `str.split(sep, 1)[-1]`, `str.lower`, `str.startswith`,
`str.isdigit`, the substring test `in`, and `text.split("\n")`.
-/

/-- Python `str.strip` whitespace: space, tab, newline, carriage return,
vertical tab and form feed. -/
def pySpace (c : Char) : Bool :=
  c = ' ' || c = '\t' || c = '\n' || c = '\r' || c = '\x0b' || c = '\x0c'

/-- Drop leading whitespace (the left half of Python `str.strip`). -/
def dropSpaces (l : List Char) : List Char := l.dropWhile pySpace

/-- Drop trailing whitespace (the right half of Python `str.strip`). -/
def trimR (l : List Char) : List Char := (l.reverse.dropWhile pySpace).reverse

/-- Python `str.strip()` on a character list. -/
def pyStrip (l : List Char) : List Char := trimR (dropSpaces l)

/-- Whether the character `c` occurs in the list. -/
def hasChar (c : Char) : List Char → Bool
  | [] => false
  | x :: xs => x = c || hasChar c xs

/-- The part of the list after the first occurrence of `c` (unspecified
when `c` does not occur; `afterFirst` handles that case). -/
def afterFirstAux (c : Char) : List Char → List Char
  | [] => []
  | x :: xs => if x = c then xs else afterFirstAux c xs

/-- Python `s.split(c, 1)[-1]`: everything after the first occurrence of
`c`, or the whole list when `c` does not occur. -/
def afterFirst (c : Char) (l : List Char) : List Char :=
  if hasChar c l then afterFirstAux c l else l

/-- Whether `p` is a prefix of `l` (Python `str.startswith`). -/
def leadsWith : List Char → List Char → Bool
  | [], _ => true
  | _ :: _, [] => false
  | p :: ps, x :: xs => p = x && leadsWith ps xs

/-- Python substring test `needle in hay`. -/
def hasSubChars (needle : List Char) : List Char → Bool
  | [] => needle.isEmpty
  | c :: rest => leadsWith needle (c :: rest) || hasSubChars needle rest

/-- Python `needle in hay` on strings (case-sensitive substring test). -/
def hasSubstring (needle hay : String) : Bool :=
  hasSubChars needle.data hay.data

/-- Python `text.split("\n")`: the empty string yields `[""]`, every
newline separates two (possibly empty) parts. -/
def splitLines : List Char → List (List Char)
  | [] => [[]]
  | c :: rest =>
    if c = '\n' then [] :: splitLines rest
    else
      match splitLines rest with
      | [] => [[c]]
      | h :: t => (c :: h) :: t

/-- Newline-join, the inverse direction of `splitLines` (used to state the
idempotence claim about `extract_steps`). -/
def joinLinesCore : List (List Char) → List Char
  | [] => []
  | [l] => l
  | l :: ls => l ++ '\n' :: joinLinesCore ls

/-! ### `extract_steps` (`server.py` lines 378-399) -/

/-- `line[0].isdigit()` guarded by `line` being non-empty.  Python
`str.isdigit` is modelled on the ASCII decimal digits (the only digits the
heuristic is aimed at). -/
def headDigit (l : List Char) : Bool :=
  match l with
  | [] => false
  | c :: _ => c.isDigit

/-- Python `line.lower()` (character-wise lowercasing). -/
def lowerChars (l : List Char) : List Char := l.map Char.toLower

/-- The characters of the literal prefix `"step"`. -/
def stepChars : List Char := ['s', 't', 'e', 'p']

/-- Python `line.lower().startswith("step")`. -/
def startsWithStep (l : List Char) : Bool := leadsWith stepChars (lowerChars l)

/-- The qualification test of `extract_steps`:
`line and (line[0].isdigit() or line.lower().startswith("step"))`. -/
def qualifiesStep (l : List Char) : Bool :=
  match l with
  | [] => false
  | c :: _ => c.isDigit || startsWithStep l

/-- The clean-up of one qualifying line in `extract_steps`: digit-led
lines drop a leading `"1."` / `"1)"` marker
(`line.split(".", 1)[-1].strip()` then `.split(")", 1)[-1].strip()`),
`"step"`-led lines drop everything up to the first colon
(`line.split(":", 1)[-1].strip()`). -/
def cleanStep (l : List Char) : List Char :=
  if headDigit l then
    pyStrip (afterFirst ')' (pyStrip (afterFirst '.' l)))
  else if startsWithStep l then
    pyStrip (afterFirst ':' l)
  else l

/-- One iteration of the `extract_steps` loop: strip the line, keep it
only if it qualifies and its cleaned form is non-empty. -/
def stepKeep (raw : List Char) : Option (List Char) :=
  let line := pyStrip raw
  if qualifiesStep line then
    let cs := cleanStep line
    if cs = [] then none else some cs
  else none

/-- The `steps` list accumulated by the `extract_steps` loop. -/
def extractStepsList (text : List Char) : List (List Char) :=
  (splitLines text).filterMap stepKeep

/-- `extract_steps` on a character list: `return steps if steps else None`. -/
def extractStepsCore (text : List Char) : Option (List (List Char)) :=
  let steps := extractStepsList text
  if steps = [] then none else some steps

/-- `extract_steps` (`server.py:378`): extract numbered steps from response
text, `None` when no step was found. -/
def extract_steps (text : String) : Option (List String) :=
  (extractStepsCore text.data).map (List.map List.asString)

/-! ### The step-extraction algorithm as the specification words it (§4.3)

Used for the refinement-style claim C1: a second definition written from
the spec's sentences — qualifying lines are the trimmed lines whose first
character is a decimal digit or whose lowercased form starts with
`"step"`; a digit-led line has the text up to and including the first `"."`
stripped, then the text up to and including the first `")"` stripped, then
is trimmed (one final trim); a `"step"`-led line has everything up to and
including the first `":"` stripped and is trimmed; cleaned-empty lines are
discarded; the result is absent iff nothing was found. -/

/-- One line's clean-up as the spec states it (single trailing trim on the
digit branch, where the source trims after each split). -/
def specCleanStep (l : List Char) : List Char :=
  if headDigit l then
    pyStrip (afterFirst ')' (afterFirst '.' l))
  else if startsWithStep l then
    pyStrip (afterFirst ':' l)
  else l

/-- The spec's description of the extraction pipeline: trim every line,
keep the qualifying ones, clean them, discard the cleaned-empty ones. -/
def specExtractList (text : List Char) : List (List Char) :=
  ((((splitLines text).map pyStrip).filter qualifiesStep).map specCleanStep).filter
    fun cs => !cs.isEmpty

/-- The spec's extraction result: absent iff zero qualifying non-empty
lines were found, else the cleaned steps in input order. -/
def specExtractCore (text : List Char) : Option (List (List Char)) :=
  let kept := specExtractList text
  if kept = [] then none else some kept

/-- String-level form of `specExtractCore`. -/
def spec_extract_steps (text : String) : Option (List String) :=
  (specExtractCore text.data).map (List.map List.asString)

/-! ### Settings and request/response models (`server.py` lines 32-116) -/

/-- `Settings` (`server.py:32`): configuration constants with their source
defaults. -/
structure Settings where
  ollama_base_url : String := "http://localhost:11434"
  default_model : String := "gemma3:4b-instruct-q4_0"
  max_image_size : Nat := 10 * 1024 * 1024
  port : Nat := 8000
  debug : Bool := false
deriving DecidableEq

/-- The process-wide `settings = Settings()` instance (`server.py:42`). -/
def settings : Settings := {}

/-- `AnalysisRequest` (`server.py:46`): the `/api/analyze` request body.
`image` and `model` are optional (`None`-able) strings. -/
structure AnalysisRequest where
  query : String
  context : String := "general"
  image : Option String := none
  model : Option String := none
deriving DecidableEq

/-- `AnalysisResponse` (`server.py:86`), without the wall-clock
`timestamp` field (`default_factory=datetime.now` is real time, outside
the embedding).  `confidence` is a rational standing for the Python float,
which the source only ever sets to the literal `0.9`. -/
structure AnalysisResponse where
  guidance : String
  steps : Option (List String)
  confidence : ℚ
  model_used : String
  context : String
deriving DecidableEq

/-! ### OllamaClient (`server.py` lines 120-191)

The pooled `httpx` transport is abstracted as an oracle: the outcome of
the `n`-th HTTP call the client would make for a given payload.  A call
either produces a response (status code, body text, and the outcome of
parsing its JSON body) or raises a transport exception (timeout,
connection refused, ...) carried as its message string. -/

/-- The three decoding options of the default `options` dict
(`server.py:164`), floats modelled as rationals. -/
structure GenOptions where
  temperature : ℚ
  top_p : ℚ
  repeat_penalty : ℚ
deriving DecidableEq

/-- `{"temperature": 0.3, "top_p": 0.9, "repeat_penalty": 1.1}`. -/
def defaultGenOptions : GenOptions :=
  { temperature := 3/10, top_p := 9/10, repeat_penalty := 11/10 }

/-- The JSON payload of `POST /api/generate` (`server.py:159-168`); the
`images` key is present only when the `images` argument is truthy. -/
structure GenPayload where
  model : String
  prompt : String
  stream : Bool
  options : GenOptions
  images : Option (List String)
deriving DecidableEq

/-- Outcome of one generate HTTP call: a response carries its status
code, its body text (`e.response.text`), and the result of
`response.json()` abstracted to the `"response"` field (`none` when the
field is absent, `Except.error` when the body is malformed and `json()`
raises); or a transport-level exception with its `str(e)` message. -/
inductive GenTransport where
  | response (status : Nat) (text : String) (parse : Except String (Option String))
  | transportError (msg : String)

/-- Outcome of one model-listing (`GET /api/tags`) HTTP call: a response
carries its status code and the result of extracting
`[model["name"] for model in data.get("models", [])]` from its JSON body
(`Except.error` when `json()` or the `"name"` lookup raises); or a
transport-level exception with its `str(e)` message. -/
inductive TagsTransport where
  | response (status : Nat) (parse : Except String (List String))
  | transportError (msg : String)

/-- `httpx.Response.is_success`, the condition under which
`raise_for_status()` does not raise: a 2xx status code. -/
def isSuccessStatus (s : Nat) : Bool := 200 ≤ s && s < 300

/-- The health dict of `OllamaClient.check_health` (`server.py:136-148`):
the `"error"` key is only present in the unhealthy dict. -/
structure HealthReport where
  status : String
  models : List String
  gemma_available : Bool
  error : Option String := none
deriving DecidableEq

/-- `OllamaClient.check_health` (`server.py:127`).  `statusErr` renders
`str(e)` of the `HTTPStatusError` that `raise_for_status()` raises for a
non-2xx status — that text is produced by `httpx`, not by this
repository, so it stays an arbitrary function of the status code.  All
other caught exceptions are carried with their message by the transport
outcome.  The function is total: every failure becomes the unhealthy
dict, nothing is re-raised. -/
def check_health (statusErr : Nat → String) (t : TagsTransport) : HealthReport :=
  match t with
  | .transportError msg =>
    { status := "unhealthy", error := some msg, models := [], gemma_available := false }
  | .response status parse =>
    if isSuccessStatus status then
      match parse with
      | .ok models =>
        { status := "healthy", models := models,
          gemma_available := models.any fun m => hasSubstring "gemma3" m }
      | .error msg =>
        { status := "unhealthy", error := some msg, models := [], gemma_available := false }
    else
      { status := "unhealthy", error := some (statusErr status), models := [],
        gemma_available := false }

/-- The result dict of `OllamaClient.generate_response`: `success=True`
with the parsed data (abstracted to its `"response"` field), or
`success=False` with the error string. -/
inductive GenOutcome where
  | success (response : Option String)
  | failure (error : String)
deriving DecidableEq

/-- The `images` key of the generate payload: present iff the `images`
argument is truthy (`if images:` — `None` and the empty list are both
falsy). -/
def payloadImages (images : Option (List String)) : Option (List String) :=
  match images with
  | none => none
  | some l => if l.isEmpty then none else some l

/-- The payload built by `generate_response` (`server.py:159-168`):
`options or {...}` falls back to the default decoding options. -/
def generate_payload (model prompt : String) (images : Option (List String))
    (options : Option GenOptions) : GenPayload :=
  { model := model, prompt := prompt, stream := false,
    options := options.getD defaultGenOptions, images := payloadImages images }

/-- The error string of the `httpx.HTTPStatusError` handler
(`server.py:183`): `f"Ollama error: (status_code) (text)"`. -/
def ollamaErrorMsg (status : Nat) (text : String) : String :=
  "Ollama error: " ++ toString status ++ " " ++ text

/-- `OllamaClient.generate_response` (`server.py:150`): build the payload,
make exactly one HTTP call (`transport 0`), return the success dict on a
2xx response whose body parses, the `"Ollama error: ..."` failure dict on
a non-2xx status, and the caught exception's message on any other error.
The function is total — no exception reaches the caller. -/
def generate_response (transport : Nat → GenPayload → GenTransport)
    (model prompt : String) (images : Option (List String))
    (options : Option GenOptions) : GenOutcome :=
  match transport 0 (generate_payload model prompt images options) with
  | .transportError msg => .failure msg
  | .response status text parse =>
    if isSuccessStatus status then
      match parse with
      | .ok data => .success data
      | .error msg => .failure msg
    else .failure (ollamaErrorMsg status text)

/-! ### `analyze_query` (`server.py` lines 288-358) -/

/-- What `POST /api/analyze` can produce: an `HTTPException` with its
status code and detail, or the 200 response model. -/
inductive AnalyzeOutcome where
  | httpError (status : Nat) (detail : String)
  | ok (resp : AnalysisResponse)
deriving DecidableEq

/-- Whether an outcome is the 413 `ValidationFailed` rejection. -/
def is413 : AnalyzeOutcome → Bool
  | .httpError 413 _ => true
  | _ => false

/-- Python truthiness of `request.image` (`str | None`): `None` and the
empty string are falsy. -/
def imageTruthy : Option String → Bool
  | none => false
  | some s => !s.isEmpty

/-- The size-ceiling test of `analyze_query` (`server.py:297`):
`request.image and len(request.image) > settings.max_image_size`. -/
def imageRejected (s : Settings) (req : AnalysisRequest) : Bool :=
  imageTruthy req.image && (req.image.getD "").length > s.max_image_size

/-- `request.model or settings.default_model` (`server.py:304`): Python
`or` falls back on falsy values, so an empty-string override also selects
the default model. -/
def chooseModel (reqModel : Option String) (s : Settings) : String :=
  match reqModel with
  | none => s.default_model
  | some m => if m.isEmpty then s.default_model else m

/-- The elderly-friendly system prompt f-string (`server.py:307-322`) as a
pure function of the context tag, the query and whether a (truthy) image
was supplied — the spec's `PromptBuilder.build`. -/
def build_prompt (context query : String) (hasImage : Bool) : String :=
  "You are a patient, helpful AI assistant specifically designed to help elderly users learn smartphone technology.\n\nYour characteristics:\n- Use simple, clear language\n- Break down tasks into small, manageable steps\n- Be encouraging and patient\n- Avoid technical jargon\n- Repeat important information\n- Assume the user may need extra reassurance\n\nCurrent app context: "
    ++ context ++ "\n"
    ++ (if hasImage then
          "The user has provided a screenshot of their phone screen for you to analyze."
        else "")
    ++ "\n\nUser's question: \"" ++ query
    ++ "\"\n\nPlease provide step-by-step guidance that is easy to follow. If analyzing a screenshot, describe what you see and provide specific guidance based on the current screen."

/-- The prompt `analyze_query` builds for a request (`server.py:307`). -/
def analyze_prompt (req : AnalysisRequest) : String :=
  build_prompt req.context req.query (imageTruthy req.image)

/-- `images = [request.image] if request.image else None`
(`server.py:325`). -/
def analyze_images (req : AnalysisRequest) : Option (List String) :=
  if imageTruthy req.image then some [req.image.getD ""] else none

/-- `analyze_query` (`server.py:288`): validate the image size before any
backend call, pick the model, build the prompt, call
`generate_response` once, surface its failure as a 500 `HTTPException`,
and otherwise assemble the response with the extracted steps and the
constant confidence `0.9`. -/
def analyze_query (s : Settings) (transport : Nat → GenPayload → GenTransport)
    (req : AnalysisRequest) : AnalyzeOutcome :=
  if imageRejected s req then
    .httpError 413 "Image too large"
  else
    let model := chooseModel req.model s
    match generate_response transport model (analyze_prompt req) (analyze_images req) none with
    | .failure err => .httpError 500 ("Failed to generate response: " ++ err)
    | .success data =>
      let response_text := data.getD ""
      .ok { guidance := response_text, steps := extract_steps response_text,
            confidence := 9/10, model_used := model, context := req.context }

/-! ## Lemmas about the Python string primitives -/

theorem dropSpaces_idem (l : List Char) : dropSpaces (dropSpaces l) = dropSpaces l := by
  induction l with
  | nil => rfl
  | cons x xs ih =>
    by_cases h : pySpace x
    · simpa [dropSpaces, List.dropWhile_cons, h] using ih
    · simp [dropSpaces, List.dropWhile_cons, h]

theorem trimR_def (l : List Char) : trimR l = (dropSpaces l.reverse).reverse := rfl

theorem trimR_idem (l : List Char) : trimR (trimR l) = trimR l := by
  simp [trimR_def, List.reverse_reverse, dropSpaces_idem]

theorem hasChar_append (c : Char) (u v : List Char) :
    hasChar c (u ++ v) = (hasChar c u || hasChar c v) := by
  induction u with
  | nil => simp [hasChar]
  | cons x xs ih => simp [hasChar, ih, Bool.or_assoc]

theorem hasChar_reverse (c : Char) (l : List Char) :
    hasChar c l.reverse = hasChar c l := by
  induction l with
  | nil => rfl
  | cons x xs ih => simp [hasChar, List.reverse_cons, hasChar_append, ih, Bool.or_comm]

theorem hasChar_dropSpaces (c : Char) (hc : pySpace c = false) (l : List Char) :
    hasChar c (dropSpaces l) = hasChar c l := by
  induction l with
  | nil => rfl
  | cons x xs ih =>
    by_cases h : pySpace x
    · have hx : ¬x = c := fun e => by rw [e, hc] at h; exact Bool.false_ne_true h
      simp [dropSpaces, List.dropWhile_cons, h, hasChar, hx]
      simpa [dropSpaces] using ih
    · simp [dropSpaces, List.dropWhile_cons, h]

theorem hasChar_trimR (c : Char) (hc : pySpace c = false) (l : List Char) :
    hasChar c (trimR l) = hasChar c l := by
  rw [trimR_def, hasChar_reverse, hasChar_dropSpaces c hc, hasChar_reverse]

theorem hasChar_pyStrip (c : Char) (hc : pySpace c = false) (l : List Char) :
    hasChar c (pyStrip l) = hasChar c l := by
  rw [pyStrip, hasChar_trimR c hc, hasChar_dropSpaces c hc]

theorem afterFirstAux_dropSpaces (c : Char) (hc : pySpace c = false) (l : List Char) :
    afterFirstAux c (dropSpaces l) = afterFirstAux c l := by
  induction l with
  | nil => rfl
  | cons x xs ih =>
    by_cases h : pySpace x
    · have hx : ¬x = c := fun e => by rw [e, hc] at h; exact Bool.false_ne_true h
      simp only [dropSpaces, List.dropWhile_cons, h, if_true, afterFirstAux, hx, if_false]
      simpa [dropSpaces] using ih
    · simp [dropSpaces, List.dropWhile_cons, h]

theorem afterFirstAux_append_left (c : Char) {u : List Char}
    (h : hasChar c u = true) (v : List Char) :
    afterFirstAux c (u ++ v) = afterFirstAux c u ++ v := by
  induction u with
  | nil => simp [hasChar] at h
  | cons x xs ih =>
    by_cases hx : x = c
    · simp [afterFirstAux, hx]
    · have h' : hasChar c xs = true := by simpa [hasChar, hx] using h
      simp [afterFirstAux, hx, ih h']

theorem trimR_decomp (l : List Char) :
    ∃ w, l = trimR l ++ w ∧ ∀ a ∈ w, pySpace a = true := by
  refine ⟨(l.reverse.takeWhile pySpace).reverse, ?_, ?_⟩
  · conv_lhs => rw [← l.reverse_reverse]
    rw [trimR_def, ← List.reverse_append]
    rw [dropSpaces, List.takeWhile_append_dropWhile]
  · intro a ha
    exact List.mem_takeWhile_imp (List.mem_reverse.mp ha)

theorem dropSpaces_append_all {v : List Char} (h : ∀ a ∈ v, pySpace a = true)
    (r : List Char) : dropSpaces (v ++ r) = dropSpaces r :=
  List.dropWhile_append_of_pos h

theorem dropSpaces_eq_nil {v : List Char} (h : ∀ a ∈ v, pySpace a = true) :
    dropSpaces v = [] :=
  List.dropWhile_eq_nil_iff.mpr h

theorem trimR_append_spaces {w : List Char} (h : ∀ a ∈ w, pySpace a = true)
    (u : List Char) : trimR (u ++ w) = trimR u := by
  rw [trimR_def, trimR_def, List.reverse_append,
    dropSpaces_append_all (fun a ha => h a (List.mem_reverse.mp ha))]

theorem dropSpaces_append_ne {u : List Char} (h : ¬dropSpaces u = []) (w : List Char) :
    dropSpaces (u ++ w) = dropSpaces u ++ w := by
  rw [dropSpaces, List.dropWhile_append]
  simp only [List.isEmpty_eq_true]
  rw [if_neg (by simpa [dropSpaces] using h)]
  rfl

theorem pyStrip_append_spaces {w : List Char} (h : ∀ a ∈ w, pySpace a = true)
    (u : List Char) : pyStrip (u ++ w) = pyStrip u := by
  by_cases hu : dropSpaces u = []
  · rw [pyStrip, pyStrip, hu]
    have : dropSpaces (u ++ w) = [] := by
      have hall : ∀ a ∈ u, pySpace a = true := List.dropWhile_eq_nil_iff.mp hu
      rw [dropSpaces_append_all hall, dropSpaces_eq_nil h]
    rw [this]
  · rw [pyStrip, pyStrip, dropSpaces_append_ne hu, trimR_append_spaces h]

theorem pyStrip_dropSpaces (l : List Char) : pyStrip (dropSpaces l) = pyStrip l := by
  rw [pyStrip, pyStrip, dropSpaces_idem]

theorem pyStrip_trimR (l : List Char) : pyStrip (trimR l) = pyStrip l := by
  obtain ⟨w, hw, hsp⟩ := trimR_decomp l
  conv_rhs => rw [hw]
  rw [pyStrip_append_spaces hsp]

theorem pyStrip_idem (l : List Char) : pyStrip (pyStrip l) = pyStrip l := by
  conv_lhs => rw [show pyStrip l = trimR (dropSpaces l) from rfl]
  rw [pyStrip_trimR, pyStrip_dropSpaces]

theorem pyStrip_afterFirst_dropSpaces (c : Char) (hc : pySpace c = false)
    (l : List Char) : pyStrip (afterFirst c (dropSpaces l)) = pyStrip (afterFirst c l) := by
  by_cases h : hasChar c l = true
  · rw [afterFirst, afterFirst, if_pos ((hasChar_dropSpaces c hc l).trans h), if_pos h,
      afterFirstAux_dropSpaces c hc]
  · have h' : ¬hasChar c (dropSpaces l) = true := by
      rw [hasChar_dropSpaces c hc]; exact h
    rw [afterFirst, afterFirst, if_neg h', if_neg h, pyStrip_dropSpaces]

theorem pyStrip_afterFirst_trimR (c : Char) (hc : pySpace c = false)
    (l : List Char) : pyStrip (afterFirst c (trimR l)) = pyStrip (afterFirst c l) := by
  obtain ⟨w, hw, hsp⟩ := trimR_decomp l
  have hcw : hasChar c w = false := by
    match hacw : hasChar c w with
    | false => rfl
    | true =>
      exfalso
      have : ∃ a ∈ w, a = c := by
        clear hw
        induction w with
        | nil => simp [hasChar] at hacw
        | cons x xs ih =>
          by_cases hx : x = c
          · exact ⟨x, List.mem_cons_self x xs, hx⟩
          · have := ih (fun a ha => hsp a (List.mem_cons_of_mem x ha))
              (by simpa [hasChar, hx] using hacw)
            obtain ⟨a, ha, hac⟩ := this
            exact ⟨a, List.mem_cons_of_mem x ha, hac⟩
      obtain ⟨a, ha, rfl⟩ := this
      rw [hsp a ha] at hc
      exact Bool.false_ne_true hc.symm
  by_cases h : hasChar c (trimR l) = true
  · have hl : hasChar c l = true := by
      rw [hw, hasChar_append, h, Bool.true_or]
    rw [afterFirst, afterFirst, if_pos h, if_pos hl]
    conv_rhs => rw [hw, afterFirstAux_append_left c h, pyStrip_append_spaces hsp]
  · have hl : hasChar c l = false := by
      rw [hw, hasChar_append, hcw]
      simpa using h
    rw [afterFirst, afterFirst, if_neg h, if_neg (by rw [hl]; exact Bool.false_ne_true)]
    conv_rhs => rw [hw, pyStrip_append_spaces hsp]

theorem pyStrip_afterFirst_pyStrip (c : Char) (hc : pySpace c = false)
    (l : List Char) : pyStrip (afterFirst c (pyStrip l)) = pyStrip (afterFirst c l) := by
  conv_lhs => rw [show pyStrip l = trimR (dropSpaces l) from rfl]
  rw [pyStrip_afterFirst_trimR c hc, pyStrip_afterFirst_dropSpaces c hc]

theorem cleanStep_eq_specCleanStep (l : List Char) : cleanStep l = specCleanStep l := by
  by_cases h : headDigit l
  · rw [cleanStep, specCleanStep, if_pos h, if_pos h,
      pyStrip_afterFirst_pyStrip ')' (by decide)]
  · rw [cleanStep, specCleanStep, if_neg h, if_neg h]

theorem filterMap_stepKeep_eq (ls : List (List Char)) :
    ls.filterMap stepKeep
      = (((ls.map pyStrip).filter qualifiesStep).map specCleanStep).filter
          (fun cs => !cs.isEmpty) := by
  induction ls with
  | nil => rfl
  | cons x xs ih =>
    by_cases hq : qualifiesStep (pyStrip x)
    · by_cases hc : cleanStep (pyStrip x) = []
      · simp [List.filterMap_cons, stepKeep, hq, hc, ih,
          ← cleanStep_eq_specCleanStep, List.isEmpty_eq_true]
      · simp [List.filterMap_cons, stepKeep, hq, hc, ih,
          ← cleanStep_eq_specCleanStep, List.isEmpty_eq_true]
    · simp [List.filterMap_cons, stepKeep, hq, ih]

theorem extractStepsCore_eq_spec (text : List Char) :
    extractStepsCore text = specExtractCore text := by
  simp only [extractStepsCore, specExtractCore, extractStepsList, specExtractList,
    filterMap_stepKeep_eq]

/-! ## Lemmas towards the idempotence claim (C9) -/

theorem hasChar_of_dropSpaces {c : Char} {l : List Char}
    (h : hasChar c (dropSpaces l) = true) : hasChar c l = true := by
  induction l with
  | nil => simpa [dropSpaces] using h
  | cons x xs ih =>
    by_cases hx : pySpace x
    · rw [dropSpaces, List.dropWhile_cons, if_pos hx] at h
      rw [hasChar, ih h, Bool.or_true]
    · rwa [dropSpaces, List.dropWhile_cons, if_neg hx] at h

theorem hasChar_of_trimR {c : Char} {l : List Char}
    (h : hasChar c (trimR l) = true) : hasChar c l = true := by
  rw [trimR_def, hasChar_reverse] at h
  rw [← hasChar_reverse]
  exact hasChar_of_dropSpaces h

theorem hasChar_of_pyStrip {c : Char} {l : List Char}
    (h : hasChar c (pyStrip l) = true) : hasChar c l = true :=
  hasChar_of_dropSpaces (hasChar_of_trimR h)

theorem hasChar_of_afterFirstAux {c d : Char} {l : List Char}
    (h : hasChar c (afterFirstAux d l) = true) : hasChar c l = true := by
  induction l with
  | nil => simpa [afterFirstAux] using h
  | cons x xs ih =>
    by_cases hx : x = d
    · rw [afterFirstAux, if_pos hx] at h
      rw [hasChar, h, Bool.or_true]
    · rw [afterFirstAux, if_neg hx] at h
      rw [hasChar, ih h, Bool.or_true]

theorem hasChar_of_afterFirst {c d : Char} {l : List Char}
    (h : hasChar c (afterFirst d l) = true) : hasChar c l = true := by
  rw [afterFirst] at h
  by_cases hd : hasChar d l
  · rw [if_pos hd] at h
    exact hasChar_of_afterFirstAux h
  · rwa [if_neg hd] at h

theorem hasChar_of_cleanStep {c : Char} {l : List Char}
    (h : hasChar c (cleanStep l) = true) : hasChar c l = true := by
  rw [cleanStep] at h
  by_cases h1 : headDigit l
  · rw [if_pos h1] at h
    exact hasChar_of_afterFirst (hasChar_of_pyStrip
      (hasChar_of_afterFirst (hasChar_of_pyStrip h)))
  · rw [if_neg h1] at h
    by_cases h2 : startsWithStep l
    · rw [if_pos h2] at h
      exact hasChar_of_afterFirst (hasChar_of_pyStrip h)
    · rwa [if_neg h2] at h

theorem splitLines_ne_nil (l : List Char) : splitLines l ≠ [] := by
  match l with
  | [] => simp [splitLines]
  | c :: rest =>
    rw [splitLines]
    by_cases hc : c = '\n'
    · simp [hc]
    · rw [if_neg hc]
      match hsp : splitLines rest with
      | [] => simp
      | h :: t => simp

theorem mem_splitLines_no_newline {raw l : List Char} (h : raw ∈ splitLines l) :
    hasChar '\n' raw = false := by
  induction l generalizing raw with
  | nil =>
    rw [splitLines, List.mem_singleton] at h
    rw [h]; rfl
  | cons c rest ih =>
    rw [splitLines] at h
    by_cases hc : c = '\n'
    · rw [if_pos hc, List.mem_cons] at h
      rcases h with h | h
      · rw [h]; rfl
      · exact ih h
    · rw [if_neg hc] at h
      match hsp : splitLines rest with
      | [] => exact absurd hsp (splitLines_ne_nil rest)
      | hd :: t =>
        rw [hsp, List.mem_cons] at h
        rcases h with h | h
        · have hhd : hasChar '\n' hd = false := ih (hsp ▸ List.mem_cons_self hd t)
          rw [h, hasChar, hhd]
          simpa using hc
        · exact ih (hsp ▸ List.mem_cons_of_mem hd h)

theorem splitLines_append_no_newline {s : List Char} (h : hasChar '\n' s = false)
    (r : List Char) : splitLines (s ++ '\n' :: r) = s :: splitLines r := by
  induction s with
  | nil => simp [splitLines]
  | cons c s' ih =>
    have hc : ¬c = '\n' := by
      intro e
      rw [hasChar, e] at h
      simp at h
    have h' : hasChar '\n' s' = false := by
      rw [hasChar] at h
      exact (Bool.or_eq_false_iff.mp h).2
    rw [List.cons_append, splitLines, if_neg hc, ih h']

theorem splitLines_no_newline {s : List Char} (h : hasChar '\n' s = false) :
    splitLines s = [s] := by
  induction s with
  | nil => rfl
  | cons c s' ih =>
    have hc : ¬c = '\n' := by
      intro e
      rw [hasChar, e] at h
      simp at h
    have h' : hasChar '\n' s' = false := by
      rw [hasChar] at h
      exact (Bool.or_eq_false_iff.mp h).2
    rw [splitLines, if_neg hc, ih h']

theorem splitLines_joinLines {steps : List (List Char)} (hne : steps ≠ [])
    (h : ∀ st ∈ steps, hasChar '\n' st = false) :
    splitLines (joinLinesCore steps) = steps := by
  induction steps with
  | nil => exact absurd rfl hne
  | cons st rest ih =>
    match rest with
    | [] =>
      rw [joinLinesCore, splitLines_no_newline (h st (List.mem_cons_self st []))]
    | r :: rs =>
      have hrec := ih (List.cons_ne_nil r rs)
        (fun a ha => h a (List.mem_cons_of_mem st ha))
      rw [joinLinesCore, splitLines_append_no_newline (h st (List.mem_cons_self st _)), hrec]
      exact fun hcontra => List.noConfusion hcontra

theorem filterMap_id_of {α : Type} {f : α → Option α} {ls : List α}
    (h : ∀ a ∈ ls, f a = some a) : ls.filterMap f = ls := by
  induction ls with
  | nil => rfl
  | cons x xs ih =>
    rw [List.filterMap_cons, h x (List.mem_cons_self x xs),
      ih (fun a ha => h a (List.mem_cons_of_mem x ha))]

theorem stepKeep_eq_some {raw st : List Char} (h : stepKeep raw = some st) :
    qualifiesStep (pyStrip raw) = true ∧ st = cleanStep (pyStrip raw) ∧ st ≠ [] := by
  by_cases hq : qualifiesStep (pyStrip raw)
  · by_cases hc : cleanStep (pyStrip raw) = []
    · simp [stepKeep, hq, hc] at h
    · refine ⟨hq, ?_, ?_⟩
      · simp [stepKeep, hq, hc] at h
        exact h.symm
      · intro he
        simp [stepKeep, hq, hc] at h
        exact hc (h.trans he)
  · simp [stepKeep, hq] at h

theorem qualifiesStep_cases {l : List Char} (h : qualifiesStep l = true) :
    headDigit l = true ∨ startsWithStep l = true := by
  match l with
  | [] => simp [qualifiesStep] at h
  | c :: rest =>
    rw [qualifiesStep] at h
    rcases Bool.or_eq_true_iff.mp h with h | h
    · left
      rw [headDigit, h]
    · right
      exact h

theorem pyStrip_cleanStep_of_qualifies {l : List Char}
    (h : qualifiesStep l = true) : pyStrip (cleanStep l) = cleanStep l := by
  rcases qualifiesStep_cases h with hd | hs
  · rw [cleanStep, if_pos hd, pyStrip_idem]
  · rw [cleanStep]
    by_cases hd : headDigit l
    · rw [if_pos hd, pyStrip_idem]
    · rw [if_neg hd, if_pos hs, pyStrip_idem]

theorem stepKeep_fixed {st : List Char} (hstrip : pyStrip st = st)
    (hq : qualifiesStep st = true) (hcl : cleanStep st = st) (hne : st ≠ []) :
    stepKeep st = some st := by
  simp [stepKeep, hstrip, hq, hcl, hne]

theorem extractStepsCore_eq_some {text : List Char} {steps : List (List Char)}
    (h : extractStepsCore text = some steps) :
    steps = extractStepsList text ∧ extractStepsList text ≠ [] := by
  by_cases he : extractStepsList text = []
  · simp [extractStepsCore, he] at h
  · simp [extractStepsCore, he] at h
    exact ⟨h.symm, he⟩

/-! ## Substring characterization (for the health-check readiness claim) -/

theorem leadsWith_iff {p l : List Char} :
    leadsWith p l = true ↔ ∃ t, l = p ++ t := by
  induction p generalizing l with
  | nil =>
    simp only [leadsWith, List.nil_append]
    exact ⟨fun _ => ⟨l, rfl⟩, fun _ => trivial⟩
  | cons a ps ih =>
    match l with
    | [] =>
      simp only [leadsWith]
      constructor
      · intro h
        exact Bool.noConfusion h
      · rintro ⟨t, ht⟩
        exact List.noConfusion ht
    | x :: xs =>
      rw [leadsWith, Bool.and_eq_true]
      constructor
      · rintro ⟨he, hl⟩
        obtain ⟨t, ht⟩ := ih.mp hl
        refine ⟨t, ?_⟩
        rw [List.cons_append, ht, of_decide_eq_true he]
      · rintro ⟨t, ht⟩
        rw [List.cons_append] at ht
        obtain ⟨he, ht'⟩ := List.cons.inj ht
        exact ⟨decide_eq_true he.symm, ih.mpr ⟨t, ht'⟩⟩

theorem hasSubChars_iff {needle hay : List Char} :
    hasSubChars needle hay = true ↔ ∃ u v, hay = u ++ needle ++ v := by
  induction hay with
  | nil =>
    simp only [hasSubChars, List.isEmpty_eq_true]
    constructor
    · rintro rfl
      exact ⟨[], [], rfl⟩
    · rintro ⟨u, v, huv⟩
      rcases List.append_eq_nil.mp (List.append_eq_nil.mp huv.symm).1 with ⟨-, h2⟩
      exact h2
  | cons c rest ih =>
    rw [hasSubChars, Bool.or_eq_true]
    constructor
    · rintro (h | h)
      · obtain ⟨t, ht⟩ := leadsWith_iff.mp h
        exact ⟨[], t, by rw [ht, List.nil_append]⟩
      · obtain ⟨u, v, huv⟩ := ih.mp h
        exact ⟨c :: u, v, by rw [huv]; simp⟩
    · rintro ⟨u, v, huv⟩
      match u with
      | [] =>
        left
        rw [List.nil_append] at huv
        exact leadsWith_iff.mpr ⟨v, huv⟩
      | a :: u' =>
        right
        rw [List.cons_append, List.cons_append] at huv
        obtain ⟨-, ht⟩ := List.cons.inj huv
        exact ih.mpr ⟨u', v, ht⟩

/-! ## Claim theorems -/

/-- C1: `extract_steps` splits its input into lines and trims each; a line
qualifies iff its trimmed form starts with a decimal digit or its
lowercased form starts with `"step"`; digit-led lines are cleaned by
stripping through the first `"."`, then through the first `")"`, then
trimming; `"step"`-led lines by stripping through the first `":"` and
trimming; cleaned-empty lines are discarded and non-qualifying lines
ignored; the result is `none` iff zero qualifying non-empty lines were
found, else the cleaned steps in input order — stated as equality with the
specification-worded pipeline `spec_extract_steps` (which trims the digit
branch only once, at the end), plus: `some []` is never returned. -/
theorem C1_extract_steps_refines_spec (text : String) :
    extract_steps text = spec_extract_steps text ∧ extract_steps text ≠ some [] := by
  constructor
  · rw [extract_steps, spec_extract_steps, extractStepsCore_eq_spec]
  · rw [extract_steps]
    by_cases h : extractStepsList text.data = []
    · simp [extractStepsCore, h]
    · simp [extractStepsCore, h]

/-- C7: the three worked examples of the spec evaluate as stated:
two digit-numbered lines, two `"Step n:"` lines, and a plain sentence. -/
theorem C7_extract_steps_examples :
    extract_steps "1. Open app\n2. Tap icon\n" = some ["Open app", "Tap icon"] ∧
    extract_steps "Step 1: Do X\nStep 2: Do Y" = some ["Do X", "Do Y"] ∧
    extract_steps "Just a sentence." = none := by
  exact ⟨by decide, by decide, by decide⟩

/-- C9 counterexample: the claim "for every input whose extraction yields
steps, extracting the newline-join of those steps yields the same steps"
fails at the input `"1. Open app"`: its extraction is `["Open app"]`, but
the newline-join of that sequence is the single line `"Open app"`, whose
extraction is `none` (the cleaned step no longer qualifies as a step
line), not `some ["Open app"]`. -/
theorem C9_counterexample :
    extract_steps "1. Open app" = some ["Open app"] ∧
    extract_steps "Open app" = none := by
  exact ⟨by decide, by decide⟩

/-- C9 (amended): `extract_steps` is idempotent on its own output only
when the re-fed lines are already stripped of numbering AND still qualify:
if extraction of `text` yields `steps` and every extracted step still
qualifies as a step line and is unchanged by the cleaning step, then
extracting the newline-join of `steps` yields `steps` again. -/
theorem C9_extract_steps_idem (text : List Char) (steps : List (List Char))
    (hex : extractStepsCore text = some steps)
    (hfix : ∀ st ∈ steps, qualifiesStep st = true ∧ cleanStep st = st) :
    extractStepsCore (joinLinesCore steps) = some steps := by
  obtain ⟨hsteps, hne⟩ := extractStepsCore_eq_some hex
  have hne' : steps ≠ [] := by rw [hsteps]; exact hne
  have hmem : ∀ st ∈ steps, pyStrip st = st ∧ hasChar '\n' st = false ∧ st ≠ [] := by
    intro st hst
    rw [hsteps, extractStepsList] at hst
    obtain ⟨raw, hraw, hkeep⟩ := List.mem_filterMap.mp hst
    obtain ⟨hq, hst_eq, hnil⟩ := stepKeep_eq_some hkeep
    have hnl_raw : hasChar '\n' raw = false := mem_splitLines_no_newline hraw
    refine ⟨?_, ?_, hnil⟩
    · rw [hst_eq]
      exact pyStrip_cleanStep_of_qualifies hq
    · match hch : hasChar '\n' st with
      | false => rfl
      | true =>
        exfalso
        rw [hst_eq] at hch
        have := hasChar_of_pyStrip (hasChar_of_cleanStep hch)
        rw [hnl_raw] at this
        exact Bool.false_ne_true this
  have hjoin : splitLines (joinLinesCore steps) = steps :=
    splitLines_joinLines hne' (fun st hst => (hmem st hst).2.1)
  have hlist : extractStepsList (joinLinesCore steps) = steps := by
    rw [extractStepsList, hjoin]
    exact filterMap_id_of (fun st hst =>
      stepKeep_fixed (hmem st hst).1 (hfix st hst).1 (hfix st hst).2 (hmem st hst).2.2)
  simp [extractStepsCore, hlist, hne']

/-- C9 witness: the amended idempotence at the concrete input
`"1. 2 Open"`, whose extracted step `"2 Open"` still starts with a digit
and is a fixed point of the cleaning. -/
theorem C9_extract_steps_idem_witness :
    extractStepsCore (joinLinesCore ["2 Open".data]) = some ["2 Open".data] :=
  C9_extract_steps_idem "1. 2 Open".data ["2 Open".data] (by decide) (by decide)

/-- C2: the size check compares the length of the base64 string against
the configured ceiling before any backend call: an image whose encoded
length is exactly the ceiling is never rejected with 413, and one whose
encoded length exceeds it by one is rejected with the 413
`"Image too large"` error — with a result that does not depend on the
transport at all (the backend is not contacted). -/
theorem C2_image_size_ceiling (s : Settings) (t t' : Nat → GenPayload → GenTransport)
    (q c : String) (m : Option String) (img : String) :
    (img.length = s.max_image_size →
      is413 (analyze_query s t ⟨q, c, some img, m⟩) = false) ∧
    (img.length = s.max_image_size + 1 →
      analyze_query s t ⟨q, c, some img, m⟩ = .httpError 413 "Image too large" ∧
      analyze_query s t ⟨q, c, some img, m⟩ = analyze_query s t' ⟨q, c, some img, m⟩) := by
  constructor
  · intro hlen
    have hrej : imageRejected s ⟨q, c, some img, m⟩ = false := by
      simp [imageRejected, hlen]
    cases hgen : generate_response t (chooseModel m s)
        (analyze_prompt ⟨q, c, some img, m⟩) (analyze_images ⟨q, c, some img, m⟩) none with
    | failure err => simp [analyze_query, hrej, hgen, is413]
    | success data => simp [analyze_query, hrej, hgen, is413]
  · intro hlen
    have htr : imageTruthy (some img) = true := by
      rw [imageTruthy]
      match he : img.isEmpty with
      | false => rfl
      | true =>
        rw [(String.isEmpty_iff img).mp he] at hlen
        exact absurd hlen.symm (Nat.succ_ne_zero s.max_image_size)
    have hrej : imageRejected s ⟨q, c, some img, m⟩ = true := by
      simp [imageRejected, htr, hlen]
    constructor
    · simp [analyze_query, hrej]
    · simp [analyze_query, hrej]

/-- C2 witness: with a ceiling of 2, a 2-character image is not rejected
and a 3-character image is rejected with the 413 error. -/
theorem C2_image_size_ceiling_witness :
    is413 (analyze_query { max_image_size := 2 } (fun _ _ => .transportError "down")
      ⟨"q", "general", some "ab", none⟩) = false ∧
    analyze_query { max_image_size := 2 } (fun _ _ => .transportError "down")
      ⟨"q", "general", some "abc", none⟩ = .httpError 413 "Image too large" :=
  ⟨(C2_image_size_ceiling { max_image_size := 2 } (fun _ _ => .transportError "down")
      (fun _ _ => .transportError "down") "q" "general" none "ab").1 (by decide),
    ((C2_image_size_ceiling { max_image_size := 2 } (fun _ _ => .transportError "down")
      (fun _ _ => .transportError "down") "q" "general" none "abc").2 (by decide)).1⟩

/-- C3: `generate_response` makes exactly one request attempt — its result
depends only on the first call of the transport oracle — and on transport
error or non-2xx HTTP status it returns the `success=False` dict
(`GenOutcome.failure`) rather than raising: on transport error the reason
is the exception message, on non-2xx it is the `"Ollama error: ..."`
string, which contains the upstream status code and the response body. -/
theorem C3_generate_single_attempt_and_failures
    (t t' : Nat → GenPayload → GenTransport) (model prompt : String)
    (images : Option (List String)) (options : Option GenOptions) :
    ((∀ p, t 0 p = t' 0 p) →
      generate_response t model prompt images options =
        generate_response t' model prompt images options) ∧
    (∀ msg, t 0 (generate_payload model prompt images options) = .transportError msg →
      generate_response t model prompt images options = .failure msg) ∧
    (∀ status text parse,
      t 0 (generate_payload model prompt images options) = .response status text parse →
      isSuccessStatus status = false →
      generate_response t model prompt images options =
        .failure (ollamaErrorMsg status text) ∧
      ∃ u, ollamaErrorMsg status text = u ++ toString status ++ " " ++ text) := by
  refine ⟨?_, ?_, ?_⟩
  · intro h
    rw [generate_response, generate_response, h]
  · intro msg hmsg
    rw [generate_response, hmsg]
  · intro status text parse hresp hst
    constructor
    · simp [generate_response, hresp, hst]
    · exact ⟨"Ollama error: ", rfl⟩

/-- C3 witness: a transport that times out on its one attempt yields the
failure dict carrying the exception message. -/
theorem C3_generate_witness :
    generate_response (fun _ _ => .transportError "Request timed out") "m" "p" none none =
      .failure "Request timed out" :=
  (C3_generate_single_attempt_and_failures (fun _ _ => .transportError "Request timed out")
    (fun _ _ => .transportError "Request timed out") "m" "p" none none).2.1
    "Request timed out" rfl

/-- C4 counterexample: the claim says the 500 detail never leaks raw
transport error strings to the caller, but when generate fails with the
transport error message `"All connection attempts failed"`, the detail of
the surfaced 500 contains that raw string verbatim (as its substring). -/
theorem C4_counterexample :
    analyze_query settings (fun _ _ => .transportError "All connection attempts failed")
      { query := "q" } =
      .httpError 500 "Failed to generate response: All connection attempts failed" ∧
    hasSubstring "All connection attempts failed"
      "Failed to generate response: All connection attempts failed" = true := by
  exact ⟨by decide, by decide⟩

/-- C4 (amended): every generate failure is surfaced to the caller as a
5xx (HTTP 500) whose detail is the fixed prefix
`"Failed to generate response: "` followed by the failure reason; no stack
trace is attached, but the raw failure reason (including transport error
text) is embedded in the detail rather than sanitized away. -/
theorem C4_backend_failure_surfaced (s : Settings)
    (t : Nat → GenPayload → GenTransport) (req : AnalysisRequest) (err : String)
    (hrej : imageRejected s req = false)
    (hgen : generate_response t (chooseModel req.model s) (analyze_prompt req)
      (analyze_images req) none = .failure err) :
    analyze_query s t req = .httpError 500 ("Failed to generate response: " ++ err) := by
  simp [analyze_query, hrej, hgen]

/-- C4 witness: the amended statement at a concrete failing transport. -/
theorem C4_backend_failure_witness :
    analyze_query settings (fun _ _ => .transportError "boom") { query := "q" } =
      .httpError 500 ("Failed to generate response: " ++ "boom") :=
  C4_backend_failure_surfaced settings (fun _ _ => .transportError "boom")
    { query := "q" } "boom" (by decide) (by decide)

/-- C5: `check_health` is a total function (no failure raises to the
caller), and on every transport or protocol failure — unreachable backend,
non-2xx status, malformed body — it returns the unhealthy report: status
`"unhealthy"`, empty model list, `gemma_available = false`, and an error
detail carrying the cause (the caught exception's message). -/
theorem C5_check_health_failures (statusErr : Nat → String) :
    (∀ msg, check_health statusErr (.transportError msg) =
      { status := "unhealthy", models := [], gemma_available := false,
        error := some msg }) ∧
    (∀ status parse, isSuccessStatus status = false →
      check_health statusErr (.response status parse) =
        { status := "unhealthy", models := [], gemma_available := false,
          error := some (statusErr status) }) ∧
    (∀ status msg, isSuccessStatus status = true →
      check_health statusErr (.response status (.error msg)) =
        { status := "unhealthy", models := [], gemma_available := false,
          error := some msg }) := by
  refine ⟨fun msg => rfl, ?_, ?_⟩
  · intro status parse h
    simp [check_health, h]
  · intro status msg h
    simp [check_health, h]

/-- C5 witness: an unreachable backend (connection error on the one tags
request) yields the unhealthy report with the cause as error detail. -/
theorem C5_check_health_witness :
    check_health (fun _ => "") (.transportError "All connection attempts failed") =
      { status := "unhealthy", models := [], gemma_available := false,
        error := some "All connection attempts failed" } :=
  (C5_check_health_failures (fun _ => "")).1 "All connection attempts failed"

/-- C8: in every successful health check (2xx status, parsable body), the
readiness flag `gemma_available` is true iff at least one reported model
name contains `"gemma3"` as a case-sensitive substring. -/
theorem C8_gemma_available_iff (statusErr : Nat → String) (status : Nat)
    (models : List String) (h : isSuccessStatus status = true) :
    ((check_health statusErr (.response status (.ok models))).gemma_available = true ↔
      ∃ m ∈ models, ∃ u v, m.data = u ++ "gemma3".data ++ v) := by
  have hch : check_health statusErr (.response status (.ok models)) =
      { status := "healthy", models := models,
        gemma_available := models.any fun m => hasSubstring "gemma3" m } := by
    simp [check_health, h]
  rw [hch]
  show (models.any fun m => hasSubstring "gemma3" m) = true ↔ _
  rw [List.any_eq_true]
  constructor
  · rintro ⟨m, hm, hsub⟩
    rw [hasSubstring] at hsub
    exact ⟨m, hm, hasSubChars_iff.mp hsub⟩
  · rintro ⟨m, hm, hsub⟩
    refine ⟨m, hm, ?_⟩
    rw [hasSubstring]
    exact hasSubChars_iff.mpr hsub

/-- C8 witness: a successful check over a concrete model list containing
a `gemma3` tag. -/
theorem C8_gemma_available_witness :
    ((check_health (fun _ => "")
        (.response 200 (.ok ["llama2:7b", "gemma3:4b-instruct-q4_0"]))).gemma_available
          = true ↔
      ∃ m ∈ ["llama2:7b", "gemma3:4b-instruct-q4_0"],
        ∃ u v, m.data = u ++ "gemma3".data ++ v) :=
  C8_gemma_available_iff (fun _ => "") 200 ["llama2:7b", "gemma3:4b-instruct-q4_0"]
    (by decide)

/-- C6 counterexample: the claim says `model_used` equals `request.model`
whenever the request supplies a model override, but a supplied
empty-string override is falsy for Python `or`, so the response carries
the configured default model, not the supplied override `""`. -/
theorem C6_counterexample :
    analyze_query settings (fun _ _ => .response 200 "" (.ok (some "hello")))
      { query := "q", model := some "" } =
      .ok { guidance := "hello", steps := none, confidence := 9/10,
            model_used := "gemma3:4b-instruct-q4_0", context := "general" } ∧
    ("gemma3:4b-instruct-q4_0" : String) ≠ "" := by
  exact ⟨rfl, by decide⟩

/-- C6 (amended): every successfully orchestrated query has the fixed
confidence 0.9 regardless of generated content, and `model_used` equals
the request's model override when one is supplied and non-empty, and the
configured default model when the override is absent or empty (Python
`or` truthiness). -/
theorem C6_confidence_and_model (s : Settings) (t : Nat → GenPayload → GenTransport)
    (req : AnalysisRequest) (resp : AnalysisResponse)
    (h : analyze_query s t req = .ok resp) :
    resp.confidence = 9/10 ∧
    (∀ m, req.model = some m → m.isEmpty = false → resp.model_used = m) ∧
    ((req.model = none ∨ req.model = some "") → resp.model_used = s.default_model) := by
  by_cases hrej : imageRejected s req
  · simp [analyze_query, hrej] at h
  · cases hgen : generate_response t (chooseModel req.model s) (analyze_prompt req)
        (analyze_images req) none with
    | failure err => simp [analyze_query, hrej, hgen] at h
    | success data =>
      simp only [analyze_query, hrej, Bool.false_eq_true, if_false, hgen] at h
      rw [AnalyzeOutcome.ok.injEq] at h
      subst h
      refine ⟨rfl, ?_, ?_⟩
      · intro m hm hne
        show chooseModel req.model s = m
        rw [hm, chooseModel, hne, if_neg (Bool.false_ne_true)]
      · rintro (hm | hm)
        · show chooseModel req.model s = s.default_model
          rw [hm, chooseModel]
        · show chooseModel req.model s = s.default_model
          rw [hm, chooseModel]
          rfl

/-- C6 witness: the amended statement at a concrete successful request
with a non-empty override. -/
theorem C6_confidence_and_model_witness :
    ({ guidance := "hello", steps := none, confidence := 9/10,
       model_used := "llava:7b", context := "general" } : AnalysisResponse).confidence
      = 9/10 :=
  (C6_confidence_and_model settings (fun _ _ => .response 200 "" (.ok (some "hello")))
    { query := "q", model := some "llava:7b" }
    { guidance := "hello", steps := none, confidence := 9/10,
      model_used := "llava:7b", context := "general" } rfl).1

/-- C10: an empty-string image is treated exactly like an absent image:
the analyze outcome is identical for every transport and settings (so the
size check cannot fire and nothing image-related reaches the backend),
the outcome is never the 413 rejection, the built prompt omits the
screenshot sentence (it equals the no-image prompt), and the images
argument passed towards the backend is `none`. -/
theorem C10_empty_image_like_absent (s : Settings)
    (t : Nat → GenPayload → GenTransport) (q c : String) (m : Option String) :
    analyze_query s t ⟨q, c, some "", m⟩ = analyze_query s t ⟨q, c, none, m⟩ ∧
    is413 (analyze_query s t ⟨q, c, some "", m⟩) = false ∧
    analyze_prompt ⟨q, c, some "", m⟩ = build_prompt c q false ∧
    analyze_images ⟨q, c, some "", m⟩ = none := by
  have hrej : imageRejected s ⟨q, c, some "", m⟩ = false := rfl
  refine ⟨rfl, ?_, rfl, rfl⟩
  cases hgen : generate_response t (chooseModel m s)
      (analyze_prompt ⟨q, c, some "", m⟩) (analyze_images ⟨q, c, some "", m⟩) none with
  | failure err => simp [analyze_query, hrej, hgen, is413]
  | success data => simp [analyze_query, hrej, hgen, is413]

end ElderlyCare
